import Mathlib

/-!
Verification of the horoscope video pipeline
(`src/render/veo_horoscope_pipeline.py`, `src/write/horoscope_writer.py`).

The Python module is shallowly embedded below.  External effects are made
explicit:

* filesystem paths are modelled as `pathlib.Path`-style component lists
  (`List String`);
* every directory creation and file write performed by a run is recorded in
  an explicit trace of `Event`s, in program order;
* the horoscope text generator (a chat-completion call in
  `horoscope_writer.py`, with a per-sign fallback placeholder) is modelled
  by an oracle `textFor : String → String` giving the text produced for
  each sign on the run's date;
* `datetime.utcnow().timestamp()`, read once per submitted job, is modelled
  by an oracle `timestampFor : Nat → Nat` indexed by the job's position;
* `os.getenv` is modelled by an oracle `env : String → Option String`.

The source file defines the class `VeoClient` twice.  The second (stub)
definition shadows the first, so it is the one every run executes; both are
embedded (`VeoClient.initLive`/`VeoClient.pollUntilDoneLive` for the first,
shadowed definition, `VeoClient.initStub`/`VeoClient.submit`/
`VeoClient.pollUntilDone` for the second, effective one).
-/

namespace Veo

/-- Truthiness of an optional string under Python: `None` and `""` are falsy. -/
def pyFalsy : Option String → Bool
  | none => true
  | some s => s = ""

/-- Python `a or b` for an optional string `a` and a string `b`. -/
def pyOr (a : Option String) (b : String) : String :=
  match a with
  | some s => if s = "" then b else s
  | none => b

/-- The twelve zodiac signs, in the order `ZODIAC_SIGNS` lists them
(`horoscope_writer.py`); the mock generator in the pipeline file uses the
same list in the same order. -/
def ZODIAC_SIGNS : List String :=
  ["Aries", "Taurus", "Gemini", "Cancer", "Leo", "Virgo",
   "Libra", "Scorpio", "Sagittarius", "Capricorn", "Aquarius", "Pisces"]

/-- `generate_daily_horoscopes`: both the real generator
(`horoscope_writer.py`, which inserts one text per sign of `ZODIAC_SIGNS`
into a dict in order, falling back to a placeholder on any per-sign API
error) and the mock defined in the pipeline file return a mapping whose
keys are exactly the twelve signs in `ZODIAC_SIGNS` order.  The text
produced for each sign (LLM output, placeholder, or mock text — all
date-dependent) is abstracted by the oracle `textFor`. -/
def generate_daily_horoscopes (textFor : String → String) : List (String × String) :=
  ZODIAC_SIGNS.map (fun s => (s, textFor s))

/-- `RenderSpec` dataclass: aspect ratio, duration in seconds, frame rate,
optional seed (source defaults: `"9:16"`, `8`, `24`, `None`). -/
structure RenderSpec where
  aspect_ratio : String
  seconds : Nat
  fps : Nat
  seed : Option Nat
deriving Repr, DecidableEq, Inhabited

/-- `SceneSpec` dataclass. -/
structure SceneSpec where
  sign : String
  script_text : String
  prompt : String
  render : RenderSpec
  style_tag : String
deriving Repr, DecidableEq, Inhabited

/-- `VideoJob` dataclass.  `video_path` holds the `str()` of a
`pathlib.Path`, modelled as its component list. -/
structure VideoJob where
  id : String
  scene : SceneSpec
  status : String
  video_path : Option (List String)
deriving Repr, DecidableEq, Inhabited

/-- One JSON object of the manifest's `jobs` array. -/
structure JobSummary where
  id : String
  sign : String
  status : String
  style : String
  video_path : Option (List String)
  prompt_file : String
deriving Repr, DecidableEq, Inhabited

/-- The manifest document written at the end of a run. -/
structure Manifest where
  date : String
  aspect_ratio : String
  seconds : Nat
  jobs : List JobSummary
deriving Repr, DecidableEq, Inhabited

/-- An observable filesystem / remote-service action of a run, recorded in
program order. -/
inductive Event where
  /-- `Path.mkdir` (idempotent, `exist_ok=True`). -/
  | mkDir (path : List String)
  /-- `Path.write_text` of a prompt file. -/
  | writeFile (path : List String) (content : String)
  /-- `VeoClient.submit` called (stub: no network traffic). -/
  | submitEv (jobId : String)
  /-- `VeoClient.poll_until_done` returned, with the job's final status. -/
  | pollDone (jobId : String) (status : String)
  /-- `Path.write_text` of `manifest.json` (content abstracted by the
  `Manifest` record it serializes). -/
  | writeManifest (path : List String) (m : Manifest)
deriving Repr, DecidableEq

/-- A decoded remote polling response of the first (shadowed) client:
the `done` flag and the optional `response.videoUri` field. -/
structure PollResponse where
  done : Bool
  videoUri : Option String
deriving Repr, DecidableEq

/-! ## Python `str.format`

`ScenePlanner.build_scene` renders the template with
`template.format(aspect=…, sign=…, caption=…, seconds=…)`.  The scanner
below models CPython's format-string processing on the subset the claims
exercise: literal text, `{{`/`}}` escapes, and replacement fields.
CPython parses a replacement field as `field_name[!conversion][:format_spec]`
and `field_name` itself as an argument name followed by optional `.attr` /
`[index]` accesses; the looked-up keyword is the content up to the first
`:`, `!`, `.` or `[`, and a missing keyword raises `KeyError` with that
name *before* any conversion, access or format-spec handling.  The scanner
reproduces that split and that lookup exactly (`nameStop`), as well as
stray/unterminated-brace `ValueError`s.  After a *successful* lookup, a
field with a non-empty remainder (a conversion, an attribute/index access,
or a format spec — CPython may succeed there, e.g. `{sign:>10}`), or a
replacement field nested inside a format spec, is outside the modelled
subset and is mapped to an error; no theorem below depends on that region.
Exceptions are modelled by `Except String`. -/

/-- The characters at which CPython stops reading the looked-up argument
name of a replacement field: format spec, conversion, attribute access,
indexing. -/
def nameStop (x : Char) : Bool :=
  x == ':' || x == '!' || x == '.' || x == '['

/-- Scanner state for `scanAux`. -/
inductive FmtMode where
  /-- reading literal text -/
  | text
  /-- just consumed an opening brace -/
  | sawLbrace
  /-- just consumed a closing brace in literal text -/
  | sawRbrace
  /-- inside a replacement field, name accumulated in reverse -/
  | field (acc : List Char)
deriving Repr, DecidableEq

/-- One-pass format scanner (see module comment of this section). -/
def scanAux (vals : String → Option String) : FmtMode → List Char → Except String String
  | .text, [] => .ok ""
  | .text, c :: rest =>
    if c = '\x7b' then scanAux vals .sawLbrace rest
    else if c = '\x7d' then scanAux vals .sawRbrace rest
    else (fun s => String.mk [c] ++ s) <$> scanAux vals .text rest
  | .sawLbrace, [] => .error "ValueError: expected closing brace before end of string"
  | .sawLbrace, c :: rest =>
    if c = '\x7b' then (fun s => "\x7b" ++ s) <$> scanAux vals .text rest
    else if c = '\x7d' then
      match vals "" with
      | some v => (fun s => v ++ s) <$> scanAux vals .text rest
      | none => .error "KeyError: "
    else scanAux vals (.field [c]) rest
  | .sawRbrace, [] => .error "ValueError: single closing brace encountered in format string"
  | .sawRbrace, c :: rest =>
    if c = '\x7d' then (fun s => "\x7d" ++ s) <$> scanAux vals .text rest
    else .error "ValueError: single closing brace encountered in format string"
  | .field _, [] => .error "ValueError: expected closing brace before end of string"
  | .field acc, c :: rest =>
    if c = '\x7d' then
      let content := acc.reverse
      let name := String.mk (content.takeWhile (fun x => !(nameStop x)))
      match vals name with
      | none => .error ("KeyError: " ++ name)
      | some v =>
        if (content.dropWhile (fun x => !(nameStop x))).isEmpty then
          (fun s => v ++ s) <$> scanAux vals .text rest
        else
          .error ("ValueError: conversion, attribute access or format spec on field " ++
            name ++ " is outside the modelled subset")
    else if c = '\x7b' then .error "ValueError: unexpected opening brace in field name"
    else scanAux vals (.field (c :: acc)) rest

/-- `template.format(**kwargs)` with keyword lookup `vals`. -/
def pyFormat (template : String) (vals : String → Option String) : Except String String :=
  scanAux vals .text template.data

/-- The argument names of the template's replacement fields, in order:
each field's content up to the first `:`, `!`, `.` or `[` — exactly the
keyword CPython's `str.format` resolves against the keyword arguments,
independently of any conversion, access or format spec that follows.
Returns `none` when the template does not parse within the modelled
subset (a stray or unterminated brace, or a brace inside a field).
Independent of the keyword arguments. -/
def refNamesAux : FmtMode → List Char → Option (List String)
  | .text, [] => some []
  | .text, c :: rest =>
    if c = '\x7b' then refNamesAux .sawLbrace rest
    else if c = '\x7d' then refNamesAux .sawRbrace rest
    else refNamesAux .text rest
  | .sawLbrace, [] => none
  | .sawLbrace, c :: rest =>
    if c = '\x7b' then refNamesAux .text rest
    else if c = '\x7d' then (fun ns => "" :: ns) <$> refNamesAux .text rest
    else refNamesAux (.field [c]) rest
  | .sawRbrace, [] => none
  | .sawRbrace, c :: rest =>
    if c = '\x7d' then refNamesAux .text rest else none
  | .field _, [] => none
  | .field acc, c :: rest =>
    if c = '\x7d' then
      (fun ns => String.mk ((acc.reverse).takeWhile (fun x => !(nameStop x))) :: ns) <$>
        refNamesAux .text rest
    else if c = '\x7b' then none
    else refNamesAux (.field (c :: acc)) rest

/-- The keyword arguments passed to `.format` by `build_scene`:
`aspect`, `sign`, `caption`, `seconds`. -/
def sceneVals (render : RenderSpec) (sign text : String) (name : String) : Option String :=
  if name = "aspect" then some render.aspect_ratio
  else if name = "sign" then some sign
  else if name = "caption" then some text
  else if name = "seconds" then some (toString render.seconds)
  else none

/-- `DEFAULT_TEMPLATE` from the source, verbatim. -/
def DEFAULT_TEMPLATE : String :=
  "Cinematic {aspect} shot. Theme: whimsical astrology vlog in a cozy neon-lit studio. " ++
  "Foreground: narrator presence implied via over-the-shoulder framing or empty chair, " ++
  "floating holographic zodiac glyphs for {sign}. Ambient particle dust. Soft volumetric " ++
  "light through blinds. Camera: slow push-in, shallow depth of field. " ++
  "Color palette: muted teal, soft gold highlights. " ++
  "On-screen caption (subtitle style): \x27{caption}\x27. " ++
  "Keep timing readable for {seconds}s."

/-- A prompt transformer: a pure callable `(prompt, scene) -> prompt` as in
the `PromptTransformer` protocol. -/
abbrev PromptTransformer := String → SceneSpec → String

/-- `IdentityTransformer`: returns the prompt unchanged. -/
def IdentityTransformer : PromptTransformer := fun prompt _ => prompt

/-- `CyberpunkPunchup`: appends the fixed decorative clause. -/
def CyberpunkPunchup : PromptTransformer := fun prompt _ =>
  prompt ++ " Add neon signage in the distance, subtle rain streaks, and UI scanlines."

/-- The transformer loop of `HoroscopeVeoPipeline.run`: each transformer is
applied to the scene's current prompt (and the scene), and its result
replaces the scene's `prompt` field before the next transformer runs. -/
def applyChain (transformers : List PromptTransformer) (scene : SceneSpec) : SceneSpec :=
  transformers.foldl (fun sc t => { sc with prompt := t sc.prompt sc }) scene

/-- `ScenePlanner`: a render configuration plus a style tag. -/
structure ScenePlanner where
  render : RenderSpec
  style_tag : String
deriving Repr, DecidableEq

/-- `ScenePlanner.build_scene`: render the template with the four keyword
arguments and wrap the result in a `SceneSpec`; a format exception
propagates (`Except.error`). -/
def ScenePlanner.build_scene (p : ScenePlanner) (sign text template : String) :
    Except String SceneSpec :=
  (pyFormat template (sceneVals p.render sign text)).map
    (fun prompt => ⟨sign, text, prompt, p.render, p.style_tag⟩)

/-- The client object: after construction it only carries the key. -/
structure VeoClient where
  api_key : String
deriving Repr, DecidableEq, Inhabited

/-- First (shadowed) `VeoClient.__init__`: `api_key or os.getenv("VEO_API_KEY")`,
then `raise RuntimeError("VEO_API_KEY missing — add it to your .env")` if the
result is falsy. -/
def VeoClient.initLive (api_key : Option String) (env : String → Option String) :
    Except String VeoClient :=
  let key : Option String :=
    match api_key with
    | some s => if s = "" then env "VEO_API_KEY" else some s
    | none => env "VEO_API_KEY"
  match key with
  | some s => if s = "" then .error "VEO_API_KEY missing — add it to your .env" else .ok ⟨s⟩
  | none => .error "VEO_API_KEY missing — add it to your .env"

/-- Second (effective) `VeoClient.__init__`:
`api_key or os.getenv("VEO_API_KEY", "demo-key")` — never raises. -/
def VeoClient.initStub (api_key : Option String) (env : String → Option String) : VeoClient :=
  ⟨pyOr api_key ((env "VEO_API_KEY").getD "demo-key")⟩

/-- Effective `VeoClient.submit`: synthesizes a local job id from the sign
and the current UTC timestamp; no network call. -/
def VeoClient.submit (_c : VeoClient) (scene : SceneSpec) (timestamp : Nat) : VideoJob :=
  { id := "veo_" ++ scene.sign.toLower ++ "_" ++ toString timestamp
    scene := scene
    status := "queued"
    video_path := none }

/-- Effective `VeoClient.poll_until_done`: creates `out_dir/renders`,
then unconditionally records `out_dir/renders/<job_id>.mp4` as the video
path and marks the job `done`; the remote service is never queried and no
media file is written. -/
def VeoClient.pollUntilDone (_c : VeoClient) (job : VideoJob) (out_dir : List String) :
    VideoJob × List Event :=
  ({ job with
      video_path := some (out_dir ++ ["renders", job.id ++ ".mp4"])
      status := "done" },
   [Event.mkDir (out_dir ++ ["renders"])])

/-- First (shadowed) `VeoClient.poll_until_done`, value level: poll until a
response has a truthy `done`; then fail if `response.videoUri` is falsy,
otherwise download to `renders/<job_id>.mp4` and mark `done`.  The argument
list holds the successive decoded poll responses; `none` models the
indefinite blocking when no response ever reports completion. -/
def VeoClient.pollUntilDoneLive (job : VideoJob) (out_dir : List String) :
    List PollResponse → Option VideoJob
  | [] => none
  | r :: rest =>
    if r.done then
      if pyFalsy r.videoUri then some { job with status := "failed" }
      else some { job with
        video_path := some (out_dir ++ ["renders", job.id ++ ".mp4"])
        status := "done" }
    else VeoClient.pollUntilDoneLive job out_dir rest

/-- `Except`-valued list traversal: the list comprehension
`[planner.build_scene(sign, text, template) for sign, text in scripts.items()]`
in which the first raised exception aborts the run. -/
def mapExcept (f : α → Except ε β) : List α → Except ε (List β)
  | [] => .ok []
  | x :: xs =>
    match f x with
    | .error e => .error e
    | .ok y =>
      match mapExcept f xs with
      | .error e => .error e
      | .ok ys => .ok (y :: ys)

/-- `HoroscopeVeoPipeline`: the stub client plus the transformer chain. -/
structure HoroscopeVeoPipeline where
  veo : VeoClient
  transformers : List PromptTransformer

/-- `HoroscopeVeoPipeline.__init__`: `transformers or [IdentityTransformer()]`
(a `None` or empty argument falls back to the identity chain). -/
def HoroscopeVeoPipeline.init (veo : VeoClient)
    (transformers : Option (List PromptTransformer)) : HoroscopeVeoPipeline :=
  ⟨veo, match transformers with
        | some ts => if ts.isEmpty then [IdentityTransformer] else ts
        | none => [IdentityTransformer]⟩

/-- Path of a sign's prompt file: `out_dir/prompts/<sign>.txt`. -/
def promptPath (out_dir : List String) (sign : String) : List String :=
  out_dir ++ ["prompts", sign ++ ".txt"]

/-- Path of a job's video file: `out_dir/renders/<job_id>.mp4`. -/
def renderPath (out_dir : List String) (jobId : String) : List String :=
  out_dir ++ ["renders", jobId ++ ".mp4"]

/-- The three directory creations at the top of `run`. -/
def dirEvents (out_dir : List String) : List Event :=
  [Event.mkDir out_dir, Event.mkDir (out_dir ++ ["prompts"]), Event.mkDir (out_dir ++ ["renders"])]

/-- Building the scene list: one `build_scene` per `(sign, text)` pair. -/
def buildScenes (render : RenderSpec) (style_tag template : String)
    (textFor : String → String) : Except String (List SceneSpec) :=
  mapExcept (fun p => ScenePlanner.build_scene ⟨render, style_tag⟩ p.1 p.2 template)
    (generate_daily_horoscopes textFor)

/-- The prompt-persisting loop: one `write_text` per (transformed) scene. -/
def promptEvents (out_dir : List String) (scenes : List SceneSpec) : List Event :=
  scenes.map (fun sc => Event.writeFile (promptPath out_dir sc.sign) sc.prompt)

/-- The job loop of `run`: for each scene in order, submit, then poll to a
terminal state, before the next scene's submission.  Returns each final job
with the events of its iteration. -/
def jobLoop (veo : VeoClient) (timestampFor : Nat → Nat) (out_dir : List String) :
    Nat → List SceneSpec → List (VideoJob × List Event)
  | _, [] => []
  | i, sc :: rest =>
    let job := veo.submit sc (timestampFor i)
    let polled := veo.pollUntilDone job out_dir
    (polled.1, Event.submitEv job.id :: polled.2 ++ [Event.pollDone polled.1.id polled.1.status])
      :: jobLoop veo timestampFor out_dir (i + 1) rest

/-- The manifest document assembled at the end of `run`. -/
def mkManifest (dateISO : String) (render : RenderSpec) (jobs : List VideoJob) : Manifest :=
  { date := dateISO
    aspect_ratio := render.aspect_ratio
    seconds := render.seconds
    jobs := jobs.map (fun j =>
      { id := j.id
        sign := j.scene.sign
        status := j.status
        style := j.scene.style_tag
        video_path := j.video_path
        prompt_file := "prompts/" ++ j.scene.sign ++ ".txt" }) }

/-- The value and trace of one run. -/
structure RunResult where
  jobs : List VideoJob
  manifest : Manifest
  events : List Event
deriving Repr, DecidableEq, Inhabited

/-- `HoroscopeVeoPipeline.run`: create the directories, obtain the
(sign → text) pairs, build the scenes (a `FormatError` aborts the run),
transform and persist each prompt, then submit-and-poll each job
sequentially, and finally write the manifest. -/
def HoroscopeVeoPipeline.run (p : HoroscopeVeoPipeline)
    (textFor : String → String) (timestampFor : Nat → Nat)
    (dateISO : String) (out_dir : List String) (render : RenderSpec)
    (template : String) (style_tag : String) : Except String RunResult :=
  match buildScenes render style_tag template textFor with
  | .error e => .error e
  | .ok scenes0 =>
    let scenes := scenes0.map (applyChain p.transformers)
    let entries := jobLoop p.veo timestampFor out_dir 0 scenes
    let jobs := entries.map Prod.fst
    let manifest := mkManifest dateISO render jobs
    .ok { jobs := jobs
          manifest := manifest
          events := dirEvents out_dir ++ promptEvents out_dir scenes ++
            (entries.map Prod.snd).flatten ++
            [Event.writeManifest (out_dir ++ ["manifest.json"]) manifest] }

/-- All the inputs of one run, bundled. -/
structure RunArgs where
  pipeline : HoroscopeVeoPipeline
  textFor : String → String
  timestampFor : Nat → Nat
  dateISO : String
  out_dir : List String
  render : RenderSpec
  template : String
  style_tag : String

/-- `run` on bundled arguments. -/
def runP (a : RunArgs) : Except String RunResult :=
  a.pipeline.run a.textFor a.timestampFor a.dateISO a.out_dir a.render a.template a.style_tag

/-- The result of a successful run (junk `default` on an aborted run). -/
def runD (a : RunArgs) : RunResult :=
  (runP a).toOption.getD default

/-! ## Event classifiers and projections -/

/-- Is the event a prompt-file write?  (`writeFile` is emitted only by the
prompt-persisting loop.) -/
def Event.isPromptWrite : Event → Bool
  | .writeFile _ _ => true
  | _ => false

/-- Is the event a job submission? -/
def Event.isSubmitEv : Event → Bool
  | .submitEv _ => true
  | _ => false

/-- Is the event a poll reaching a terminal state? -/
def Event.isPollDone : Event → Bool
  | .pollDone _ _ => true
  | _ => false

/-- Is the event the manifest write? -/
def Event.isManifestWrite : Event → Bool
  | .writeManifest _ _ => true
  | _ => false

/-- The path of a file-creating event (`None` for directory creations and
remote-service events). -/
def Event.writePath : Event → Option (List String)
  | .writeFile p _ => some p
  | .writeManifest p _ => some p
  | _ => none

/-- Path and byte content of a prompt-file write. -/
def Event.promptWriteOf : Event → Option (List String × String)
  | .writeFile p c => some (p, c)
  | _ => none

/-! ## Helper lemmas -/

theorem Except.map_comp {ε α β γ : Type} (f : β → γ) (g : α → β) (e : Except ε α) :
    f <$> (g <$> e) = (fun x => f (g x)) <$> e := by
  cases e <;> rfl

/-- The pure tail of `run` after the scene list has been built. -/
def runFrom (a : RunArgs) (scenes0 : List SceneSpec) : RunResult :=
  let scenes := scenes0.map (applyChain a.pipeline.transformers)
  let entries := jobLoop a.pipeline.veo a.timestampFor a.out_dir 0 scenes
  let jobs := entries.map Prod.fst
  let manifest := mkManifest a.dateISO a.render jobs
  { jobs := jobs
    manifest := manifest
    events := dirEvents a.out_dir ++ promptEvents a.out_dir scenes ++
      (entries.map Prod.snd).flatten ++
      [Event.writeManifest (a.out_dir ++ ["manifest.json"]) manifest] }

theorem runP_eq (a : RunArgs) :
    runP a = (buildScenes a.render a.style_tag a.template a.textFor).map (runFrom a) := by
  unfold runP HoroscopeVeoPipeline.run runFrom
  cases buildScenes a.render a.style_tag a.template a.textFor <;> rfl

theorem runD_eq (a : RunArgs) (scenes0 : List SceneSpec)
    (h : buildScenes a.render a.style_tag a.template a.textFor = .ok scenes0) :
    runD a = runFrom a scenes0 := by
  simp [runD, runP_eq, h, Except.toOption, Except.map]

theorem runP_isOk (a : RunArgs) (h : (runP a).isOk = true) :
    ∃ scenes0, buildScenes a.render a.style_tag a.template a.textFor = .ok scenes0 := by
  rw [runP_eq] at h
  cases hb : buildScenes a.render a.style_tag a.template a.textFor with
  | error e => rw [hb] at h; simp [Except.map, Except.isOk, Except.toBool] at h
  | ok scenes0 => exact ⟨scenes0, rfl⟩

theorem applyChain_sign (ts : List PromptTransformer) (sc : SceneSpec) :
    (applyChain ts sc).sign = sc.sign := by
  induction ts generalizing sc with
  | nil => rfl
  | cons t ts ih => simpa [applyChain] using ih { sc with prompt := t sc.prompt sc }

theorem applyChain_script_text (ts : List PromptTransformer) (sc : SceneSpec) :
    (applyChain ts sc).script_text = sc.script_text := by
  induction ts generalizing sc with
  | nil => rfl
  | cons t ts ih => simpa [applyChain] using ih { sc with prompt := t sc.prompt sc }

theorem applyChain_render (ts : List PromptTransformer) (sc : SceneSpec) :
    (applyChain ts sc).render = sc.render := by
  induction ts generalizing sc with
  | nil => rfl
  | cons t ts ih => simpa [applyChain] using ih { sc with prompt := t sc.prompt sc }

theorem applyChain_style_tag (ts : List PromptTransformer) (sc : SceneSpec) :
    (applyChain ts sc).style_tag = sc.style_tag := by
  induction ts generalizing sc with
  | nil => rfl
  | cons t ts ih => simpa [applyChain] using ih { sc with prompt := t sc.prompt sc }

theorem mapExcept_build_ok (pl : ScenePlanner) (template : String) :
    ∀ (scripts : List (String × String)) (l : List SceneSpec),
      mapExcept (fun p => ScenePlanner.build_scene pl p.1 p.2 template) scripts = .ok l →
      l.map (fun sc => sc.sign) = scripts.map Prod.fst ∧
      ∀ sc ∈ l, sc.render = pl.render ∧ sc.style_tag = pl.style_tag := by
  intro scripts
  induction scripts with
  | nil =>
    intro l h
    simp only [mapExcept, Except.ok.injEq] at h
    subst h
    simp
  | cons p ps ih =>
    intro l h
    simp only [mapExcept] at h
    cases hb : ScenePlanner.build_scene pl p.1 p.2 template with
    | error e => rw [hb] at h; exact absurd h (by simp)
    | ok sc =>
      rw [hb] at h
      cases hr : mapExcept (fun p => ScenePlanner.build_scene pl p.1 p.2 template) ps with
      | error e => rw [hr] at h; exact absurd h (by simp)
      | ok ys =>
        rw [hr] at h
        obtain ⟨rfl⟩ : sc :: ys = l := by simpa using h
        obtain ⟨ih1, ih2⟩ := ih ys hr
        have hsc : sc.sign = p.1 ∧ sc.render = pl.render ∧ sc.style_tag = pl.style_tag := by
          unfold ScenePlanner.build_scene at hb
          cases hf : pyFormat template (sceneVals pl.render p.1 p.2) with
          | error e => rw [hf] at hb; exact absurd hb (by simp [Except.map])
          | ok prompt =>
            rw [hf] at hb
            simp [Except.map] at hb
            simp [← hb]
        refine ⟨?_, ?_⟩
        · simp [ih1, hsc.1]
        · intro x hx
          rcases List.mem_cons.mp hx with rfl | hx
          · exact hsc.2
          · exact ih2 x hx

theorem buildScenes_signs (render : RenderSpec) (style_tag template : String)
    (textFor : String → String) (l : List SceneSpec)
    (h : buildScenes render style_tag template textFor = .ok l) :
    l.map (fun sc => sc.sign) = ZODIAC_SIGNS ∧
    ∀ sc ∈ l, sc.render = render ∧ sc.style_tag = style_tag := by
  obtain ⟨h1, h2⟩ := mapExcept_build_ok ⟨render, style_tag⟩ template _ l h
  refine ⟨?_, h2⟩
  rw [h1]
  rfl

theorem jobLoop_fst_scene (veo : VeoClient) (ts : Nat → Nat) (out : List String) :
    ∀ (i : Nat) (scenes : List SceneSpec),
      (jobLoop veo ts out i scenes).map (fun e => e.1.scene) = scenes := by
  intro i scenes
  induction scenes generalizing i with
  | nil => rfl
  | cons sc rest ih =>
    simp [jobLoop, VeoClient.pollUntilDone, VeoClient.submit, ih]

theorem jobLoop_mem (veo : VeoClient) (ts : Nat → Nat) (out : List String) :
    ∀ (i : Nat) (scenes : List SceneSpec) (e : VideoJob × List Event),
      e ∈ jobLoop veo ts out i scenes →
      e.1.status = "done" ∧
      e.1.video_path = some (renderPath out e.1.id) ∧
      e.2 = [Event.submitEv e.1.id, Event.mkDir (out ++ ["renders"]),
             Event.pollDone e.1.id e.1.status] ∧
      e.1.scene ∈ scenes := by
  intro i scenes
  induction scenes generalizing i with
  | nil => intro e h; simp [jobLoop] at h
  | cons sc rest ih =>
    intro e h
    simp only [jobLoop, List.mem_cons] at h
    rcases h with rfl | h
    · refine ⟨rfl, rfl, ?_, by simp [VeoClient.pollUntilDone, VeoClient.submit]⟩
      simp [VeoClient.pollUntilDone, VeoClient.submit, renderPath]
    · obtain ⟨h1, h2, h3, h4⟩ := ih (i + 1) e h
      exact ⟨h1, h2, h3, List.mem_cons_of_mem _ h4⟩

theorem jobLoop_length (veo : VeoClient) (ts : Nat → Nat) (out : List String) :
    ∀ (i : Nat) (scenes : List SceneSpec),
      (jobLoop veo ts out i scenes).length = scenes.length := by
  intro i scenes
  induction scenes generalizing i with
  | nil => rfl
  | cons sc rest ih => simp [jobLoop, ih]

theorem get_append_left_mem {α : Type} :
    ∀ (P S : List α) (i : Nat) (h : i < (P ++ S).length), i < P.length →
      (P ++ S).get ⟨i, h⟩ ∈ P := by
  intro P
  induction P with
  | nil => intro S i h hi; simp at hi
  | cons a P ih =>
    intro S i h hi
    cases i with
    | zero => simp
    | succ n =>
      have := ih S n (by simpa using h) (by simpa using hi)
      simpa using Or.inr this

theorem get_append_right_mem {α : Type} :
    ∀ (P S : List α) (i : Nat) (h : i < (P ++ S).length), P.length ≤ i →
      (P ++ S).get ⟨i, h⟩ ∈ S := by
  intro P
  induction P with
  | nil => intro S i h hi; exact List.get_mem S i h
  | cons a P ih =>
    intro S i h hi
    cases i with
    | zero => simp at hi
    | succ n =>
      have := ih S n (by simpa using h) (by simpa using hi)
      simpa using this

theorem mk_cons_append (c : Char) (l : List Char) (s : String) :
    String.mk (c :: l) ++ s = String.mk [c] ++ (String.mk l ++ s) := rfl

/-- A run of brace-free literal characters is copied verbatim by the
format scanner. -/
theorem scanAux_text_plain (vals : String → Option String) :
    ∀ (l1 l2 : List Char), (∀ c ∈ l1, c ≠ '\x7b' ∧ c ≠ '\x7d') →
      scanAux vals .text (l1 ++ l2) =
        (fun s => String.mk l1 ++ s) <$> scanAux vals .text l2 := by
  intro l1
  induction l1 with
  | nil =>
    intro l2 _
    cases hsc : scanAux vals FmtMode.text l2 <;> simp [hsc, Except.map]
  | cons c l1 ih =>
    intro l2 h
    obtain ⟨hc1, hc2⟩ := h c (by simp)
    have hrest : ∀ x ∈ l1, x ≠ '\x7b' ∧ x ≠ '\x7d' := fun x hx => h x (by simp [hx])
    show scanAux vals FmtMode.text (c :: (l1 ++ l2)) = _
    simp only [scanAux, if_neg hc1, if_neg hc2]
    rw [ih l2 hrest, Except.map_comp]
    have : (fun x => String.mk [c] ++ (String.mk l1 ++ x)) =
        (fun s => String.mk (c :: l1) ++ s) := funext fun x => (mk_cons_append c l1 x).symm
    rw [this]

theorem takeWhile_all {α : Type} {p : α → Bool} :
    ∀ l : List α, (∀ c ∈ l, p c = true) → l.takeWhile p = l := by
  intro l
  induction l with
  | nil => intro _; rfl
  | cons c l ih =>
    intro h
    simp [List.takeWhile_cons, h c (List.mem_cons_self c l),
      ih (fun x hx => h x (List.mem_cons_of_mem c hx))]

theorem dropWhile_all {α : Type} {p : α → Bool} :
    ∀ l : List α, (∀ c ∈ l, p c = true) → l.dropWhile p = [] := by
  intro l
  induction l with
  | nil => intro _; rfl
  | cons c l ih =>
    intro h
    simp [List.dropWhile_cons, h c (List.mem_cons_self c l),
      ih (fun x hx => h x (List.mem_cons_of_mem c hx))]

/-- Closing a replacement field whose content is a simple argument name
(no braces and no `nameStop` character): the name is looked up and the
scan continues in text mode (or fails with a `KeyError`). -/
theorem scanAux_field_close (vals : String → Option String) :
    ∀ (nm acc l2 : List Char),
      (∀ c ∈ nm, c ≠ '\x7b' ∧ c ≠ '\x7d' ∧ nameStop c = false) →
      (∀ c ∈ acc, nameStop c = false) →
      scanAux vals (.field acc) (nm ++ '\x7d' :: l2) =
        match vals (String.mk (acc.reverse ++ nm)) with
        | some v => (fun s => v ++ s) <$> scanAux vals .text l2
        | none => .error ("KeyError: " ++ String.mk (acc.reverse ++ nm)) := by
  intro nm
  induction nm with
  | nil =>
    intro acc l2 _ hacc
    have hpred : ∀ c ∈ acc.reverse, (fun x => !(nameStop x)) c = true := by
      intro c hc
      have := hacc c (List.mem_reverse.mp hc)
      simp [this]
    have htake := takeWhile_all acc.reverse hpred
    have hdrop := dropWhile_all acc.reverse hpred
    show scanAux vals (FmtMode.field acc) ('\x7d' :: l2) = _
    cases hv : vals (String.mk acc.reverse) with
    | none => simp [scanAux, htake, hdrop, hv]
    | some v => simp [scanAux, htake, hdrop, hv]
  | cons c nm ih =>
    intro acc l2 h hacc
    obtain ⟨hc1, hc2, hc3⟩ := h c (by simp)
    have hrest : ∀ x ∈ nm, x ≠ '\x7b' ∧ x ≠ '\x7d' ∧ nameStop x = false :=
      fun x hx => h x (by simp [hx])
    have hacc' : ∀ x ∈ c :: acc, nameStop x = false := by
      intro x hx
      rcases List.mem_cons.mp hx with rfl | hx
      · exact hc3
      · exact hacc x hx
    show scanAux vals (FmtMode.field acc) (c :: (nm ++ '\x7d' :: l2)) = _
    simp only [scanAux, if_neg hc2, if_neg hc1]
    rw [ih (c :: acc) l2 hrest hacc']
    simp [List.append_assoc]

/-- A complete replacement field `{nm}` with a simple argument name
substitutes `vals nm` (or fails with a `KeyError` naming the unknown
field). -/
theorem scanAux_text_field (vals : String → Option String)
    (nm l2 : List Char) (hne : nm ≠ [])
    (hnm : ∀ c ∈ nm, c ≠ '\x7b' ∧ c ≠ '\x7d' ∧ nameStop c = false) :
    scanAux vals .text ('\x7b' :: (nm ++ '\x7d' :: l2)) =
      match vals (String.mk nm) with
      | some v => (fun s => v ++ s) <$> scanAux vals .text l2
      | none => .error ("KeyError: " ++ String.mk nm) := by
  cases nm with
  | nil => exact absurd rfl hne
  | cons c nm' =>
    obtain ⟨hc1, hc2, hc3⟩ := hnm c (by simp)
    have hrest : ∀ x ∈ nm', x ≠ '\x7b' ∧ x ≠ '\x7d' ∧ nameStop x = false :=
      fun x hx => hnm x (by simp [hx])
    show scanAux vals FmtMode.text ('\x7b' :: (c :: nm' ++ '\x7d' :: l2)) = _
    simp only [scanAux, if_pos rfl]
    show scanAux vals FmtMode.sawLbrace (c :: (nm' ++ '\x7d' :: l2)) = _
    simp only [scanAux, if_neg hc1, if_neg hc2]
    rw [scanAux_field_close vals nm' [c] l2 hrest (by simp [hc3])]
    simp

/-- If no element of `P` satisfies `q` and no element of `S` satisfies `p`,
then in `P ++ S` every `p`-position strictly precedes every `q`-position. -/
theorem precede_of_append {α : Type} (p q : α → Bool) (P S : List α)
    (hP : ∀ e ∈ P, q e = false) (hS : ∀ e ∈ S, p e = false) :
    ∀ (i j : Nat) (hi : i < (P ++ S).length) (hj : j < (P ++ S).length),
      p ((P ++ S).get ⟨i, hi⟩) = true → q ((P ++ S).get ⟨j, hj⟩) = true → i < j := by
  intro i j hi hj hpi hqj
  by_contra hlt
  push_neg at hlt
  have hj' : P.length ≤ j := by
    by_contra hjP
    push_neg at hjP
    have := hP _ (get_append_left_mem P S j hj hjP)
    rw [this] at hqj
    exact Bool.false_ne_true hqj
  have hi' : P.length ≤ i := le_trans hj' hlt
  have := hS _ (get_append_right_mem P S i hi hi')
  rw [this] at hpi
  exact Bool.false_ne_true hpi

theorem map_sign_applyChain (ts : List PromptTransformer) (l : List SceneSpec) :
    (l.map (applyChain ts)).map (fun sc => sc.sign) = l.map (fun sc => sc.sign) := by
  rw [List.map_map]
  exact List.map_congr_left (fun sc _ => applyChain_sign ts sc)

theorem promptPath_injective (out : List String) : Function.Injective (promptPath out) := by
  intro s1 s2 h
  unfold promptPath at h
  have h2 := List.append_cancel_left h
  have h3 : s1 ++ ".txt" = s2 ++ ".txt" := by simpa using h2
  have h4 : s1.data ++ ".txt".data = s2.data ++ ".txt".data := by
    have := congrArg String.data h3
    simpa [String.data_append] using this
  exact String.ext (List.append_cancel_right h4)

/-- The prompt-file writes of a run, in order: one per (transformed) scene,
at `out_dir/prompts/<sign>.txt`, holding the scene's final prompt. -/
theorem runFrom_promptWrites (a : RunArgs) (scenes0 : List SceneSpec) :
    (runFrom a scenes0).events.filterMap Event.promptWriteOf =
      (scenes0.map (applyChain a.pipeline.transformers)).map
        (fun sc => (promptPath a.out_dir sc.sign, sc.prompt)) := by
  simp only [runFrom, List.filterMap_append]
  have hdir : (dirEvents a.out_dir).filterMap Event.promptWriteOf = [] := rfl
  have hprompt : ∀ scenes : List SceneSpec,
      (promptEvents a.out_dir scenes).filterMap Event.promptWriteOf =
        scenes.map (fun sc => (promptPath a.out_dir sc.sign, sc.prompt)) := by
    intro scenes
    induction scenes with
    | nil => rfl
    | cons sc rest ih => simp [promptEvents, Event.promptWriteOf] at ih ⊢; exact ih
  have hjob : ∀ (i : Nat) (scenes : List SceneSpec),
      (((jobLoop a.pipeline.veo a.timestampFor a.out_dir i scenes).map Prod.snd).flatten).filterMap
        Event.promptWriteOf = [] := by
    intro i scenes
    apply List.filterMap_eq_nil_iff.mpr
    intro e he
    rw [List.mem_flatten] at he
    obtain ⟨l, hl, hel⟩ := he
    rw [List.mem_map] at hl
    obtain ⟨en, hen, rfl⟩ := hl
    obtain ⟨-, -, h3, -⟩ := jobLoop_mem _ _ _ i scenes en hen
    rw [h3] at hel
    simp only [List.mem_cons, List.mem_singleton] at hel
    rcases hel with rfl | rfl | rfl | h <;> first | rfl | simp at h
  rw [hdir, hprompt, hjob]
  simp [Event.promptWriteOf]

/-- The file-creating writes of a run, in order: the twelve prompt files,
then `manifest.json` — nothing else (in particular nothing under
`renders/`). -/
theorem runFrom_writePaths (a : RunArgs) (scenes0 : List SceneSpec) :
    (runFrom a scenes0).events.filterMap Event.writePath =
      (scenes0.map (applyChain a.pipeline.transformers)).map
        (fun sc => promptPath a.out_dir sc.sign) ++ [a.out_dir ++ ["manifest.json"]] := by
  simp only [runFrom, List.filterMap_append]
  have hdir : (dirEvents a.out_dir).filterMap Event.writePath = [] := rfl
  have hprompt : ∀ scenes : List SceneSpec,
      (promptEvents a.out_dir scenes).filterMap Event.writePath =
        scenes.map (fun sc => promptPath a.out_dir sc.sign) := by
    intro scenes
    induction scenes with
    | nil => rfl
    | cons sc rest ih => simp [promptEvents, Event.writePath] at ih ⊢; exact ih
  have hjob : ∀ (i : Nat) (scenes : List SceneSpec),
      (((jobLoop a.pipeline.veo a.timestampFor a.out_dir i scenes).map Prod.snd).flatten).filterMap
        Event.writePath = [] := by
    intro i scenes
    apply List.filterMap_eq_nil_iff.mpr
    intro e he
    rw [List.mem_flatten] at he
    obtain ⟨l, hl, hel⟩ := he
    rw [List.mem_map] at hl
    obtain ⟨en, hen, rfl⟩ := hl
    obtain ⟨-, -, h3, -⟩ := jobLoop_mem _ _ _ i scenes en hen
    rw [h3] at hel
    simp only [List.mem_cons, List.mem_singleton] at hel
    rcases hel with rfl | rfl | rfl | h <;> first | rfl | simp at h
  rw [hdir, hprompt, hjob]
  simp [Event.writePath]

theorem runFrom_manifest_signs (a : RunArgs) (scenes0 : List SceneSpec) :
    (runFrom a scenes0).manifest.jobs.map (fun j => j.sign) =
      scenes0.map (fun sc => sc.sign) := by
  simp only [runFrom, mkManifest, List.map_map]
  have h1 : ((fun j : VideoJob => j.scene.sign) ∘ Prod.fst) =
      fun e : VideoJob × List Event => e.1.scene.sign := rfl
  calc (jobLoop a.pipeline.veo a.timestampFor a.out_dir 0
          (scenes0.map (applyChain a.pipeline.transformers))).map
        ((fun j => j.sign) ∘ (fun j : VideoJob =>
          ({ id := j.id, sign := j.scene.sign, status := j.status, style := j.scene.style_tag,
             video_path := j.video_path,
             prompt_file := "prompts/" ++ j.scene.sign ++ ".txt" } : JobSummary)) ∘ Prod.fst)
      = ((jobLoop a.pipeline.veo a.timestampFor a.out_dir 0
          (scenes0.map (applyChain a.pipeline.transformers))).map
          (fun e => e.1.scene)).map (fun sc => sc.sign) := by
        rw [List.map_map]; rfl
    _ = scenes0.map (fun sc => sc.sign) := by
        rw [jobLoop_fst_scene, map_sign_applyChain]

theorem runFrom_jobs_length (a : RunArgs) (scenes0 : List SceneSpec) :
    (runFrom a scenes0).jobs.length = scenes0.length := by
  simp [runFrom, jobLoop_length]

theorem runFrom_manifest_length (a : RunArgs) (scenes0 : List SceneSpec) :
    (runFrom a scenes0).manifest.jobs.length = scenes0.length := by
  simp [runFrom, mkManifest, jobLoop_length]

theorem gen_keys (textFor : String → String) :
    (generate_daily_horoscopes textFor).map Prod.fst = ZODIAC_SIGNS := rfl

theorem runFrom_jobs_mem (a : RunArgs) (scenes0 : List SceneSpec) (j : VideoJob)
    (hj : j ∈ (runFrom a scenes0).jobs) :
    j.status = "done" ∧ j.video_path = some (renderPath a.out_dir j.id) := by
  simp only [runFrom] at hj
  rw [List.mem_map] at hj
  obtain ⟨en, hen, rfl⟩ := hj
  obtain ⟨h1, h2, -, -⟩ := jobLoop_mem _ _ _ _ _ en hen
  exact ⟨h1, h2⟩

/-! ## The run arguments used to witness the claims (a normal offline run
with a small placeholder template and deterministic oracles). -/

def witnessArgs : RunArgs :=
  { pipeline := ⟨⟨"demo-key"⟩, [IdentityTransformer]⟩
    textFor := fun s => s ++ " text"
    timestampFor := fun i => i
    dateISO := "2025-06-01"
    out_dir := ["out"]
    render := ⟨"9:16", 8, 24, none⟩
    template := "Prompt for {sign}: {caption}"
    style_tag := "whimsical_astrology" }

/-! ## Claims -/

/-- Claim C1: for every valid date and every mapping of the twelve zodiac
signs to horoscope text returned by the text generator, `Pipeline.run`
produces exactly twelve prompt files (one per sign, at
`prompts/<Sign>.txt`, pairwise distinct) and writes a manifest listing
exactly twelve jobs, each job's `sign` field matching exactly one input
sign key. -/
theorem claim_C1 (a : RunArgs) (h : (runP a).isOk = true) :
    ((runD a).events.filterMap Event.promptWriteOf).length = 12 ∧
    ((runD a).events.filterMap Event.promptWriteOf).map Prod.fst =
      ZODIAC_SIGNS.map (promptPath a.out_dir) ∧
    (ZODIAC_SIGNS.map (promptPath a.out_dir)).Nodup ∧
    (runD a).manifest.jobs.length = 12 ∧
    (runD a).manifest.jobs.map (fun j => j.sign) = ZODIAC_SIGNS ∧
    ∀ j ∈ (runD a).manifest.jobs,
      ((generate_daily_horoscopes a.textFor).map Prod.fst).count j.sign = 1 := by
  obtain ⟨scenes0, hb⟩ := runP_isOk a h
  obtain ⟨hsigns, -⟩ := buildScenes_signs _ _ _ _ _ hb
  have hlen0 : scenes0.length = 12 := by
    have := congrArg List.length hsigns
    simpa using this
  have hpaths : ((runD a).events.filterMap Event.promptWriteOf).map Prod.fst =
      ZODIAC_SIGNS.map (promptPath a.out_dir) := by
    rw [runD_eq a scenes0 hb, runFrom_promptWrites, List.map_map]
    show (scenes0.map (applyChain a.pipeline.transformers)).map
      (fun sc => promptPath a.out_dir sc.sign) = _
    have h2 : (scenes0.map (applyChain a.pipeline.transformers)).map
        (fun sc => promptPath a.out_dir sc.sign) =
        ((scenes0.map (applyChain a.pipeline.transformers)).map
          (fun sc => sc.sign)).map (promptPath a.out_dir) := by
      simp [List.map_map, Function.comp]
    rw [h2, map_sign_applyChain, hsigns]
  refine ⟨?_, hpaths, ?_, ?_, ?_, ?_⟩
  · rw [runD_eq a scenes0 hb, runFrom_promptWrites]
    simp [hlen0]
  · exact List.Nodup.map (promptPath_injective a.out_dir) (by decide)
  · rw [runD_eq a scenes0 hb, runFrom_manifest_length, hlen0]
  · rw [runD_eq a scenes0 hb, runFrom_manifest_signs, hsigns]
  · intro j hj
    have hmem : j.sign ∈ ZODIAC_SIGNS := by
      have : j.sign ∈ (runD a).manifest.jobs.map (fun j => j.sign) :=
        List.mem_map.mpr ⟨j, hj, rfl⟩
      rwa [runD_eq a scenes0 hb, runFrom_manifest_signs, hsigns] at this
    rw [gen_keys]
    exact List.count_eq_one_of_mem (by decide) hmem

theorem claim_C1_witness :
    ((runD witnessArgs).events.filterMap Event.promptWriteOf).length = 12 ∧
    ((runD witnessArgs).events.filterMap Event.promptWriteOf).map Prod.fst =
      ZODIAC_SIGNS.map (promptPath witnessArgs.out_dir) ∧
    (ZODIAC_SIGNS.map (promptPath witnessArgs.out_dir)).Nodup ∧
    (runD witnessArgs).manifest.jobs.length = 12 ∧
    (runD witnessArgs).manifest.jobs.map (fun j => j.sign) = ZODIAC_SIGNS ∧
    ∀ j ∈ (runD witnessArgs).manifest.jobs,
      ((generate_daily_horoscopes witnessArgs.textFor).map Prod.fst).count j.sign = 1 :=
  claim_C1 witnessArgs (by decide)

/-- Claim C9: under the effective (second, shadowing) `VeoClient`
definition, `poll_until_done` unconditionally marks every job `done` and
assigns a video path without any network call, so every job returned by
`Pipeline.run` and every manifest entry has status `"done"` and a non-null
`video_path`; the `"failed"` status is unreachable. -/
theorem claim_C9 (a : RunArgs) (h : (runP a).isOk = true) :
    (∀ j ∈ (runD a).jobs, j.status = "done" ∧ j.status ≠ "failed" ∧
      j.video_path = some (renderPath a.out_dir j.id)) ∧
    ∀ e ∈ (runD a).manifest.jobs,
      e.status = "done" ∧ e.status ≠ "failed" ∧ e.video_path ≠ none := by
  obtain ⟨scenes0, hb⟩ := runP_isOk a h
  rw [runD_eq a scenes0 hb]
  constructor
  · intro j hj
    obtain ⟨h1, h2⟩ := runFrom_jobs_mem a scenes0 j hj
    refine ⟨h1, ?_, h2⟩
    rw [h1]; decide
  · intro e he
    simp only [runFrom, mkManifest] at he
    rw [List.mem_map] at he
    obtain ⟨j, hj, rfl⟩ := he
    rw [List.mem_map] at hj
    obtain ⟨en, hen, rfl⟩ := hj
    obtain ⟨h1, h2, -, -⟩ := jobLoop_mem _ _ _ _ _ en hen
    refine ⟨h1, ?_, ?_⟩
    · show en.1.status ≠ "failed"
      rw [h1]; decide
    · show en.1.video_path ≠ none
      simp [h2]

theorem claim_C9_witness :
    (∀ j ∈ (runD witnessArgs).jobs, j.status = "done" ∧ j.status ≠ "failed" ∧
      j.video_path = some (renderPath witnessArgs.out_dir j.id)) ∧
    ∀ e ∈ (runD witnessArgs).manifest.jobs,
      e.status = "done" ∧ e.status ≠ "failed" ∧ e.video_path ≠ none :=
  claim_C9 witnessArgs (by decide)

/-- Claim C10: a complete run writes exactly the twelve prompt files and
`manifest.json` (creating the `prompts/` and `renders/` directories) and
no other file; in particular no `.mp4` file is ever created under
`renders/`, even though every job's `video_path` (and every manifest
`video_path` field) names a `renders/<job_id>.mp4` file that is never
among the written files. -/
theorem claim_C10 (a : RunArgs) (h : (runP a).isOk = true) :
    ((runD a).events.filterMap Event.writePath =
      ZODIAC_SIGNS.map (promptPath a.out_dir) ++ [a.out_dir ++ ["manifest.json"]]) ∧
    Event.mkDir (a.out_dir ++ ["prompts"]) ∈ (runD a).events ∧
    Event.mkDir (a.out_dir ++ ["renders"]) ∈ (runD a).events ∧
    (runD a).manifest.jobs.map (fun e => e.video_path) =
      (runD a).jobs.map (fun j => j.video_path) ∧
    ∀ j ∈ (runD a).jobs, j.video_path = some (renderPath a.out_dir j.id) ∧
      renderPath a.out_dir j.id ∉ (runD a).events.filterMap Event.writePath := by
  obtain ⟨scenes0, hb⟩ := runP_isOk a h
  obtain ⟨hsigns, -⟩ := buildScenes_signs _ _ _ _ _ hb
  have hwp : (runD a).events.filterMap Event.writePath =
      ZODIAC_SIGNS.map (promptPath a.out_dir) ++ [a.out_dir ++ ["manifest.json"]] := by
    rw [runD_eq a scenes0 hb, runFrom_writePaths]
    congr 1
    have h2 : (scenes0.map (applyChain a.pipeline.transformers)).map
        (fun sc => promptPath a.out_dir sc.sign) =
        ((scenes0.map (applyChain a.pipeline.transformers)).map
          (fun sc => sc.sign)).map (promptPath a.out_dir) := by
      simp [List.map_map, Function.comp]
    rw [h2, map_sign_applyChain, hsigns]
  refine ⟨hwp, ?_, ?_, ?_, ?_⟩
  · rw [runD_eq a scenes0 hb]
    simp only [runFrom, dirEvents]
    simp
  · rw [runD_eq a scenes0 hb]
    simp only [runFrom, dirEvents]
    simp
  · rw [runD_eq a scenes0 hb]
    simp only [runFrom, mkManifest]
    rw [List.map_map]
    rfl
  · intro j hj
    rw [runD_eq a scenes0 hb] at hj
    obtain ⟨-, h2⟩ := runFrom_jobs_mem a scenes0 j hj
    refine ⟨h2, ?_⟩
    rw [hwp]
    intro hmem
    rw [List.mem_append] at hmem
    rcases hmem with hmem | hmem
    · rw [List.mem_map] at hmem
      obtain ⟨s, -, heq⟩ := hmem
      unfold renderPath promptPath at heq
      have h3 := List.append_cancel_left heq.symm
      injection h3 with h4 h5
      exact absurd h4 (by decide)
    · rw [List.mem_singleton] at hmem
      unfold renderPath at hmem
      have h3 := List.append_cancel_left hmem
      injection h3 with h4 h5
      exact absurd h4 (by decide)

theorem claim_C10_witness :
    ((runD witnessArgs).events.filterMap Event.writePath =
      ZODIAC_SIGNS.map (promptPath witnessArgs.out_dir) ++
        [witnessArgs.out_dir ++ ["manifest.json"]]) ∧
    Event.mkDir (witnessArgs.out_dir ++ ["prompts"]) ∈ (runD witnessArgs).events ∧
    Event.mkDir (witnessArgs.out_dir ++ ["renders"]) ∈ (runD witnessArgs).events ∧
    (runD witnessArgs).manifest.jobs.map (fun e => e.video_path) =
      (runD witnessArgs).jobs.map (fun j => j.video_path) ∧
    ∀ j ∈ (runD witnessArgs).jobs,
      j.video_path = some (renderPath witnessArgs.out_dir j.id) ∧
      renderPath witnessArgs.out_dir j.id ∉
        (runD witnessArgs).events.filterMap Event.writePath :=
  claim_C10 witnessArgs (by decide)

theorem runFrom_events (a : RunArgs) (scenes0 : List SceneSpec) :
    (runFrom a scenes0).events =
      (dirEvents a.out_dir ++
        promptEvents a.out_dir (scenes0.map (applyChain a.pipeline.transformers))) ++
      (((jobLoop a.pipeline.veo a.timestampFor a.out_dir 0
          (scenes0.map (applyChain a.pipeline.transformers))).map Prod.snd).flatten ++
        [Event.writeManifest (a.out_dir ++ ["manifest.json"]) (runFrom a scenes0).manifest]) := by
  simp only [runFrom]
  simp [List.append_assoc]

theorem front_no_submit (out : List String) (scenes : List SceneSpec) :
    ∀ e ∈ dirEvents out ++ promptEvents out scenes, e.isSubmitEv = false := by
  intro e he
  rw [List.mem_append] at he
  rcases he with he | he
  · simp only [dirEvents, List.mem_cons, List.mem_singleton] at he
    rcases he with rfl | rfl | rfl | he
    · rfl
    · rfl
    · rfl
    · simp at he
  · rw [promptEvents, List.mem_map] at he
    obtain ⟨sc, -, rfl⟩ := he
    rfl

theorem back_no_promptWrite (veo : VeoClient) (ts : Nat → Nat) (out : List String)
    (i : Nat) (scenes : List SceneSpec) (m : Event)
    (hm : m.isPromptWrite = false) :
    ∀ e ∈ ((jobLoop veo ts out i scenes).map Prod.snd).flatten ++ [m],
      e.isPromptWrite = false := by
  intro e he
  rw [List.mem_append] at he
  rcases he with he | he
  · rw [List.mem_flatten] at he
    obtain ⟨l, hl, hel⟩ := he
    rw [List.mem_map] at hl
    obtain ⟨en, hen, rfl⟩ := hl
    obtain ⟨-, -, h3, -⟩ := jobLoop_mem _ _ _ i scenes en hen
    rw [h3] at hel
    simp only [List.mem_cons, List.mem_singleton] at hel
    rcases hel with rfl | rfl | rfl | hel
    · rfl
    · rfl
    · rfl
    · simp at hel
  · rw [List.mem_singleton] at he
    rwa [he]

theorem jobLoop_filter_sp (veo : VeoClient) (ts : Nat → Nat) (out : List String) :
    ∀ (i : Nat) (scenes : List SceneSpec),
      (((jobLoop veo ts out i scenes).map Prod.snd).flatten).filter
          (fun e => e.isSubmitEv || e.isPollDone) =
        ((jobLoop veo ts out i scenes).map
          (fun en => [Event.submitEv en.1.id, Event.pollDone en.1.id en.1.status])).flatten := by
  intro i scenes
  induction scenes generalizing i with
  | nil => rfl
  | cons sc rest ih =>
    simp only [jobLoop, List.map_cons, List.flatten_cons, List.filter_append]
    rw [ih (i + 1)]
    rfl

theorem prompt_filter_sp (out : List String) (scenes : List SceneSpec) :
    (promptEvents out scenes).filter (fun e => e.isSubmitEv || e.isPollDone) = [] := by
  apply List.filter_eq_nil_iff.mpr
  intro e he
  rw [promptEvents, List.mem_map] at he
  obtain ⟨sc, -, rfl⟩ := he
  simp [Event.isSubmitEv, Event.isPollDone]

theorem prompt_filter_manifest (out : List String) (scenes : List SceneSpec) :
    (promptEvents out scenes).filter Event.isManifestWrite = [] := by
  apply List.filter_eq_nil_iff.mpr
  intro e he
  rw [promptEvents, List.mem_map] at he
  obtain ⟨sc, -, rfl⟩ := he
  simp [Event.isManifestWrite]

theorem jobLoop_filter_manifest (veo : VeoClient) (ts : Nat → Nat) (out : List String) :
    ∀ (i : Nat) (scenes : List SceneSpec),
      (((jobLoop veo ts out i scenes).map Prod.snd).flatten).filter Event.isManifestWrite = [] := by
  intro i scenes
  induction scenes generalizing i with
  | nil => rfl
  | cons sc rest ih =>
    simp only [jobLoop, List.map_cons, List.flatten_cons, List.filter_append]
    rw [ih (i + 1)]
    rfl

/-- Claim C7: in every execution of `Pipeline.run`, all twelve final prompt
files are persisted before any job is submitted; jobs are then processed
strictly sequentially — the subsequence of submit/poll events is exactly
submit₁, poll₁, submit₂, poll₂, … in job order, so each job is submitted
and polled to a terminal state before the next submission; and the manifest
is written exactly once, as the final event, after every job has reached a
terminal (here: `"done"`) state. -/
theorem claim_C7 (a : RunArgs) (h : (runP a).isOk = true) :
    (∀ (i j : Nat) (hi : i < (runD a).events.length) (hj : j < (runD a).events.length),
      ((runD a).events.get ⟨i, hi⟩).isPromptWrite = true →
      ((runD a).events.get ⟨j, hj⟩).isSubmitEv = true → i < j) ∧
    ((runD a).events.filter (fun e => e.isSubmitEv || e.isPollDone) =
      ((runD a).jobs.map
        (fun j => [Event.submitEv j.id, Event.pollDone j.id j.status])).flatten) ∧
    ((runD a).events.filter Event.isManifestWrite =
      [Event.writeManifest (a.out_dir ++ ["manifest.json"]) (runD a).manifest]) ∧
    ((runD a).events.getLast? =
      some (Event.writeManifest (a.out_dir ++ ["manifest.json"]) (runD a).manifest)) ∧
    ∀ j ∈ (runD a).jobs, j.status = "done" := by
  obtain ⟨scenes0, hb⟩ := runP_isOk a h
  refine ⟨?_, ?_, ?_, ?_, ?_⟩
  · rw [runD_eq a scenes0 hb, runFrom_events]
    exact precede_of_append _ _ _ _
      (front_no_submit a.out_dir (scenes0.map (applyChain a.pipeline.transformers)))
      (back_no_promptWrite a.pipeline.veo a.timestampFor a.out_dir 0
        (scenes0.map (applyChain a.pipeline.transformers)) _ rfl)
  · rw [runD_eq a scenes0 hb, runFrom_events]
    simp only [List.filter_append]
    rw [jobLoop_filter_sp, prompt_filter_sp]
    rw [show (dirEvents a.out_dir).filter (fun e => e.isSubmitEv || e.isPollDone) = [] from rfl]
    rw [show ([Event.writeManifest (a.out_dir ++ ["manifest.json"])
      (runFrom a scenes0).manifest]).filter (fun e => e.isSubmitEv || e.isPollDone) = [] from rfl]
    simp only [runFrom, List.map_map]
    simp
    rfl
  · rw [runD_eq a scenes0 hb, runFrom_events]
    simp only [List.filter_append]
    rw [jobLoop_filter_manifest, prompt_filter_manifest]
    rfl
  · rw [runD_eq a scenes0 hb, runFrom_events]
    rw [← List.append_assoc, List.getLast?_concat]
  · intro j hj
    rw [runD_eq a scenes0 hb] at hj
    exact (runFrom_jobs_mem a scenes0 j hj).1

theorem claim_C7_witness :
    (∀ (i j : Nat) (hi : i < (runD witnessArgs).events.length)
        (hj : j < (runD witnessArgs).events.length),
      ((runD witnessArgs).events.get ⟨i, hi⟩).isPromptWrite = true →
      ((runD witnessArgs).events.get ⟨j, hj⟩).isSubmitEv = true → i < j) ∧
    ((runD witnessArgs).events.filter (fun e => e.isSubmitEv || e.isPollDone) =
      ((runD witnessArgs).jobs.map
        (fun j => [Event.submitEv j.id, Event.pollDone j.id j.status])).flatten) ∧
    ((runD witnessArgs).events.filter Event.isManifestWrite =
      [Event.writeManifest (witnessArgs.out_dir ++ ["manifest.json"])
        (runD witnessArgs).manifest]) ∧
    ((runD witnessArgs).events.getLast? =
      some (Event.writeManifest (witnessArgs.out_dir ++ ["manifest.json"])
        (runD witnessArgs).manifest)) ∧
    ∀ j ∈ (runD witnessArgs).jobs, j.status = "done" :=
  claim_C7 witnessArgs (by decide)

/-- Erase the synthesized-job-id-derived fields of a manifest entry
(the id itself and the video path, which embeds the id). -/
def scrubJob (e : JobSummary) : JobSummary :=
  { e with id := "", video_path := none }

/-- A manifest with all job-id-derived fields erased. -/
def scrubManifest (m : Manifest) : Manifest :=
  { m with jobs := m.jobs.map scrubJob }

/-- Erase the job-id-derived fields of a returned job. -/
def scrubVideoJob (j : VideoJob) : VideoJob :=
  { j with id := "", video_path := none }

theorem jobLoop_scrub_eq (veo : VeoClient) (out : List String) (ts1 ts2 : Nat → Nat) :
    ∀ (i1 i2 : Nat) (scenes : List SceneSpec),
      (jobLoop veo ts1 out i1 scenes).map (fun en => scrubJob
        { id := en.1.id, sign := en.1.scene.sign, status := en.1.status,
          style := en.1.scene.style_tag, video_path := en.1.video_path,
          prompt_file := "prompts/" ++ en.1.scene.sign ++ ".txt" }) =
      (jobLoop veo ts2 out i2 scenes).map (fun en => scrubJob
        { id := en.1.id, sign := en.1.scene.sign, status := en.1.status,
          style := en.1.scene.style_tag, video_path := en.1.video_path,
          prompt_file := "prompts/" ++ en.1.scene.sign ++ ".txt" }) := by
  intro i1 i2 scenes
  induction scenes generalizing i1 i2 with
  | nil => rfl
  | cons sc rest ih =>
    simp only [jobLoop, VeoClient.submit, VeoClient.pollUntilDone, List.map_cons]
    rw [ih (i1 + 1) (i2 + 1)]
    rfl

theorem jobLoop_scrubV_eq (veo : VeoClient) (out : List String) (ts1 ts2 : Nat → Nat) :
    ∀ (i1 i2 : Nat) (scenes : List SceneSpec),
      (jobLoop veo ts1 out i1 scenes).map (fun en => scrubVideoJob en.1) =
      (jobLoop veo ts2 out i2 scenes).map (fun en => scrubVideoJob en.1) := by
  intro i1 i2 scenes
  induction scenes generalizing i1 i2 with
  | nil => rfl
  | cons sc rest ih =>
    simp only [jobLoop, VeoClient.submit, VeoClient.pollUntilDone, List.map_cons]
    rw [ih (i1 + 1) (i2 + 1)]
    rfl

/-- Claim C8: running the pipeline twice with identical inputs (same date,
sign→text mapping, render spec, template, style tag, transformer list and
client) but at different wall-clock times produces byte-identical prompt
files (same paths, same contents, in the same order); both runs succeed or
fail together, and the manifests and returned job lists agree once the
job-id field and the id-derived `video_path` field are erased. -/
theorem claim_C8 (a : RunArgs) (ts2 : Nat → Nat) :
    ((runP a).isOk = (runP { a with timestampFor := ts2 }).isOk) ∧
    ((runD a).events.filterMap Event.promptWriteOf =
      (runD { a with timestampFor := ts2 }).events.filterMap Event.promptWriteOf) ∧
    (scrubManifest (runD a).manifest =
      scrubManifest (runD { a with timestampFor := ts2 }).manifest) ∧
    ((runD a).jobs.map scrubVideoJob =
      (runD { a with timestampFor := ts2 }).jobs.map scrubVideoJob) := by
  cases hb : buildScenes a.render a.style_tag a.template a.textFor with
  | error e =>
    have hb' : buildScenes { a with timestampFor := ts2 }.render
        { a with timestampFor := ts2 }.style_tag { a with timestampFor := ts2 }.template
        { a with timestampFor := ts2 }.textFor = .error e := hb
    have h1 : runP a = .error e := by rw [runP_eq, hb]; rfl
    have h2 : runP { a with timestampFor := ts2 } = .error e := by rw [runP_eq, hb']; rfl
    have h3 : runD a = default := by simp [runD, h1, Except.toOption]
    have h4 : runD { a with timestampFor := ts2 } = default := by
      simp [runD, h2, Except.toOption]
    rw [h1, h2, h3, h4]
    exact ⟨rfl, rfl, rfl, rfl⟩
  | ok scenes0 =>
    have hb' : buildScenes { a with timestampFor := ts2 }.render
        { a with timestampFor := ts2 }.style_tag { a with timestampFor := ts2 }.template
        { a with timestampFor := ts2 }.textFor = .ok scenes0 := hb
    have h1 : runP a = .ok (runFrom a scenes0) := by rw [runP_eq, hb]; rfl
    have h2 : runP { a with timestampFor := ts2 } =
        .ok (runFrom { a with timestampFor := ts2 } scenes0) := by rw [runP_eq, hb']; rfl
    refine ⟨by rw [h1, h2]; rfl, ?_, ?_, ?_⟩
    · rw [runD_eq a scenes0 hb, runD_eq _ scenes0 hb',
        runFrom_promptWrites, runFrom_promptWrites]
    · rw [runD_eq a scenes0 hb, runD_eq _ scenes0 hb']
      show scrubManifest (mkManifest _ _ _) = scrubManifest (mkManifest _ _ _)
      unfold scrubManifest mkManifest
      simp only [List.map_map, Manifest.mk.injEq]
      refine ⟨trivial, trivial, trivial, ?_⟩
      exact jobLoop_scrub_eq a.pipeline.veo a.out_dir a.timestampFor ts2 0 0
        (scenes0.map (applyChain a.pipeline.transformers))
    · rw [runD_eq a scenes0 hb, runD_eq _ scenes0 hb']
      show ((jobLoop a.pipeline.veo a.timestampFor a.out_dir 0
          (scenes0.map (applyChain a.pipeline.transformers))).map Prod.fst).map scrubVideoJob =
        ((jobLoop a.pipeline.veo ts2 a.out_dir 0
          (scenes0.map (applyChain a.pipeline.transformers))).map Prod.fst).map scrubVideoJob
      simp only [List.map_map]
      exact jobLoop_scrubV_eq a.pipeline.veo a.out_dir a.timestampFor ts2 0 0
        (scenes0.map (applyChain a.pipeline.transformers))

/-- Claim C2 counterexample: the effective `poll_until_done` (second
definition, the one every run executes) returns status `"done"` and a
non-null `video_path` for a concrete queued job — never `"failed"` with a
null path — regardless of any remote poll response, because it performs no
network call at all. -/
theorem claim_C2_counterexample :
    ((VeoClient.pollUntilDone ⟨"demo-key"⟩
        ⟨"op123", ⟨"Aries", "t", "p", ⟨"9:16", 8, 24, none⟩, "s"⟩, "queued", none⟩
        ["out"]).1.status = "done") ∧
    ((VeoClient.pollUntilDone ⟨"demo-key"⟩
        ⟨"op123", ⟨"Aries", "t", "p", ⟨"9:16", 8, 24, none⟩, "s"⟩, "queued", none⟩
        ["out"]).1.status ≠ "failed") ∧
    ((VeoClient.pollUntilDone ⟨"demo-key"⟩
        ⟨"op123", ⟨"Aries", "t", "p", ⟨"9:16", 8, 24, none⟩, "s"⟩, "queued", none⟩
        ["out"]).1.video_path = some ["out", "renders", "op123.mp4"]) := by
  refine ⟨rfl, ?_, rfl⟩
  decide

/-- Claim C2 (amended): the claimed behaviour is that of the first,
shadowed `poll_until_done` definition, which is dead code.  Under that
definition, when the remote reports not-done for a while and then a
completion with no (or an empty) media URL, the returned job is the input
job with status `"failed"` and its null `video_path` unchanged, and no
download happens.  The effective (second) definition never consults the
remote: it returns every job with status `"done"` and a non-null
`video_path`. -/
theorem claim_C2_amended (job : VideoJob) (out : List String)
    (pre : List PollResponse) (r : PollResponse) (rest : List PollResponse)
    (hpre : ∀ q ∈ pre, q.done = false) (hd : r.done = true)
    (hu : pyFalsy r.videoUri = true) (hv : job.video_path = none) :
    (VeoClient.pollUntilDoneLive job out (pre ++ r :: rest) =
      some ⟨job.id, job.scene, "failed", none⟩) ∧
    ((VeoClient.pollUntilDone ⟨"demo-key"⟩ job out).1.status = "done" ∧
      (VeoClient.pollUntilDone ⟨"demo-key"⟩ job out).1.video_path ≠ none) := by
  refine ⟨?_, rfl, by simp [VeoClient.pollUntilDone]⟩
  induction pre with
  | nil =>
    simp only [List.nil_append, VeoClient.pollUntilDoneLive, hd, hu, if_true]
    rw [show ({ job with status := "failed" } : VideoJob) =
      ⟨job.id, job.scene, "failed", job.video_path⟩ from rfl, hv]
  | cons q pre ih =>
    have hq := hpre q (by simp)
    simp only [List.cons_append, VeoClient.pollUntilDoneLive, hq, Bool.false_eq_true,
      if_false]
    exact ih (fun x hx => hpre x (by simp [hx]))

theorem claim_C2_witness :
    (VeoClient.pollUntilDoneLive
        ⟨"op9", ⟨"Leo", "t", "p", ⟨"9:16", 8, 24, none⟩, "s"⟩, "queued", none⟩
        ["out"] ([⟨false, none⟩] ++ ⟨true, none⟩ :: []) =
      some ⟨"op9", ⟨"Leo", "t", "p", ⟨"9:16", 8, 24, none⟩, "s"⟩, "failed", none⟩) ∧
    ((VeoClient.pollUntilDone ⟨"demo-key"⟩
        ⟨"op9", ⟨"Leo", "t", "p", ⟨"9:16", 8, 24, none⟩, "s"⟩, "queued", none⟩
        ["out"]).1.status = "done" ∧
      (VeoClient.pollUntilDone ⟨"demo-key"⟩
        ⟨"op9", ⟨"Leo", "t", "p", ⟨"9:16", 8, 24, none⟩, "s"⟩, "queued", none⟩
        ["out"]).1.video_path ≠ none) :=
  claim_C2_amended _ _ _ _ _ (by decide) (by decide) (by decide) (by decide)

/-- The run arguments of the C3 counterexample: the client is constructed
with no explicit key and an environment in which `VEO_API_KEY` is absent. -/
def c3Args : RunArgs :=
  { witnessArgs with
      pipeline := ⟨VeoClient.initStub none (fun _ => none), [IdentityTransformer]⟩ }

/-- Claim C3 counterexample: with `VEO_API_KEY` absent from the environment
and no key passed explicitly, the effective `VeoClient.__init__` does not
raise — it silently substitutes `"demo-key"` — and a full pipeline run then
proceeds and writes thirteen files (twelve prompts and the manifest), so
the run does not abort before any file is written. -/
theorem claim_C3_counterexample :
    (VeoClient.initStub none (fun _ => none) = ⟨"demo-key"⟩) ∧
    (runP c3Args).isOk = true ∧
    ((runD c3Args).events.filterMap Event.writePath).length = 13 := by
  refine ⟨rfl, by decide, by decide⟩

/-- Claim C3 (amended): the abort-on-missing-key behaviour belongs to the
first, shadowed `VeoClient.__init__`, which is dead code: that definition
raises `RuntimeError` (the configuration error) when the key is absent
from the environment and none is passed explicitly.  The effective second
definition instead falls back to the default `"demo-key"` and never
aborts. -/
theorem claim_C3_amended (env : String → Option String)
    (h : env "VEO_API_KEY" = none) :
    VeoClient.initLive none env =
      .error "VEO_API_KEY missing — add it to your .env" ∧
    VeoClient.initStub none env = ⟨"demo-key"⟩ := by
  constructor
  · simp [VeoClient.initLive, h]
  · simp [VeoClient.initStub, pyOr, h]

theorem claim_C3_witness :
    VeoClient.initLive none (fun _ => none) =
      .error "VEO_API_KEY missing — add it to your .env" ∧
    VeoClient.initStub none (fun _ => none) = ⟨"demo-key"⟩ :=
  claim_C3_amended (fun _ => none) rfl

/-- Claim C6: the transformer chain applies the transformers in configured
order, feeding each transformer's output prompt to the next, and the final
result replaces the scene's `prompt` field and nothing else; in particular,
for deterministic transformers `A` and `B` (pure in the prompt argument,
as the `PromptTransformer` protocol requires), running the chain `[A, B]`
yields the same final prompt as manually applying `A` and then `B` to the
base prompt. -/
theorem claim_C6 (A B : PromptTransformer) (s : SceneSpec)
    (hA : ∀ (p : String) (s₁ s₂ : SceneSpec), A p s₁ = A p s₂)
    (hB : ∀ (p : String) (s₁ s₂ : SceneSpec), B p s₁ = B p s₂) :
    ((applyChain [A, B] s).prompt = B (A s.prompt s) s) ∧
    ((applyChain [A] s).prompt = A s.prompt s) ∧
    (∀ ts : List PromptTransformer, (applyChain ts s).sign = s.sign ∧
      (applyChain ts s).script_text = s.script_text ∧
      (applyChain ts s).render = s.render ∧
      (applyChain ts s).style_tag = s.style_tag) := by
  have hA0 := hA s.prompt s s
  refine ⟨?_, rfl, ?_⟩
  · show B (A s.prompt s) { s with prompt := A s.prompt s } = B (A s.prompt s) s
    exact hB _ _ _
  · intro ts
    exact ⟨applyChain_sign ts s, applyChain_script_text ts s,
      applyChain_render ts s, applyChain_style_tag ts s⟩

theorem claim_C6_witness :
    ((applyChain [IdentityTransformer, CyberpunkPunchup]
        ⟨"Aries", "t", "base", ⟨"9:16", 8, 24, none⟩, "s"⟩).prompt =
      CyberpunkPunchup
        (IdentityTransformer "base" ⟨"Aries", "t", "base", ⟨"9:16", 8, 24, none⟩, "s"⟩)
        ⟨"Aries", "t", "base", ⟨"9:16", 8, 24, none⟩, "s"⟩) ∧
    ((applyChain [IdentityTransformer]
        ⟨"Aries", "t", "base", ⟨"9:16", 8, 24, none⟩, "s"⟩).prompt =
      IdentityTransformer "base" ⟨"Aries", "t", "base", ⟨"9:16", 8, 24, none⟩, "s"⟩) ∧
    (∀ ts : List PromptTransformer,
      (applyChain ts ⟨"Aries", "t", "base", ⟨"9:16", 8, 24, none⟩, "s"⟩).sign = "Aries" ∧
      (applyChain ts ⟨"Aries", "t", "base", ⟨"9:16", 8, 24, none⟩, "s"⟩).script_text = "t" ∧
      (applyChain ts ⟨"Aries", "t", "base", ⟨"9:16", 8, 24, none⟩, "s"⟩).render =
        ⟨"9:16", 8, 24, none⟩ ∧
      (applyChain ts ⟨"Aries", "t", "base", ⟨"9:16", 8, 24, none⟩, "s"⟩).style_tag = "s") :=
  claim_C6 IdentityTransformer CyberpunkPunchup _
    (fun _ _ _ => rfl) (fun _ _ _ => rfl)

theorem sceneVals_none (render : RenderSpec) (sign text : String) (name : String)
    (h1 : name ≠ "aspect") (h2 : name ≠ "sign") (h3 : name ≠ "caption")
    (h4 : name ≠ "seconds") : sceneVals render sign text name = none := by
  simp [sceneVals, h1, h2, h3, h4]

theorem scanAux_text_plain_nil (vals : String → Option String) (l : List Char)
    (h : ∀ c ∈ l, c ≠ '\x7b' ∧ c ≠ '\x7d') :
    scanAux vals .text l = .ok (String.mk l) := by
  have h2 := scanAux_text_plain vals l [] h
  rw [List.append_nil] at h2
  rw [h2]
  show Except.ok (String.mk l ++ "") = Except.ok (String.mk l)
  rw [String.append_empty]

/-- A successful format scan binds every referenced argument name: if
`scanAux` returns a rendered string, the template parses (so `refNamesAux`
lists its field names) and every listed name has a keyword binding.  The
scanner consumes one character per step, so this follows by induction on
the remaining characters, over all scanner modes. -/
theorem scanAux_ok_names (vals : String → Option String) :
    ∀ (l : List Char) (mode : FmtMode) (s : String),
      scanAux vals mode l = .ok s →
      ∃ ns, refNamesAux mode l = some ns ∧ ∀ n ∈ ns, (vals n).isSome = true := by
  intro l
  induction l with
  | nil =>
    intro mode s h
    cases mode with
    | text => exact ⟨[], rfl, by simp⟩
    | sawLbrace => simp [scanAux] at h
    | sawRbrace => simp [scanAux] at h
    | field acc => simp [scanAux] at h
  | cons c rest ih =>
    intro mode s h
    cases mode with
    | text =>
      by_cases h1 : c = '\x7b'
      · simp only [scanAux, if_pos h1] at h
        obtain ⟨ns, hr, hk⟩ := ih _ _ h
        exact ⟨ns, by simp [refNamesAux, h1, hr], hk⟩
      · by_cases h2 : c = '\x7d'
        · simp only [scanAux, if_neg h1, if_pos h2] at h
          obtain ⟨ns, hr, hk⟩ := ih _ _ h
          exact ⟨ns, by simp [refNamesAux, h1, h2, hr], hk⟩
        · simp only [scanAux, if_neg h1, if_neg h2] at h
          cases hsc : scanAux vals FmtMode.text rest with
          | error e => rw [hsc] at h; exact absurd h (by simp [Except.map])
          | ok s' =>
            obtain ⟨ns, hr, hk⟩ := ih _ _ hsc
            exact ⟨ns, by simp [refNamesAux, h1, h2, hr], hk⟩
    | sawLbrace =>
      by_cases h1 : c = '\x7b'
      · simp only [scanAux, if_pos h1] at h
        cases hsc : scanAux vals FmtMode.text rest with
        | error e => rw [hsc] at h; exact absurd h (by simp [Except.map])
        | ok s' =>
          obtain ⟨ns, hr, hk⟩ := ih _ _ hsc
          exact ⟨ns, by simp [refNamesAux, h1, hr], hk⟩
      · by_cases h2 : c = '\x7d'
        · simp only [scanAux, if_neg h1, if_pos h2] at h
          cases hv : vals "" with
          | none => rw [hv] at h; exact absurd h (by simp)
          | some v =>
            rw [hv] at h
            cases hsc : scanAux vals FmtMode.text rest with
            | error e => rw [hsc] at h; exact absurd h (by simp [Except.map])
            | ok s' =>
              obtain ⟨ns, hr, hk⟩ := ih _ _ hsc
              refine ⟨"" :: ns, by simp [refNamesAux, h1, h2, hr], ?_⟩
              intro n hn
              rcases List.mem_cons.mp hn with rfl | hn
              · simp [hv]
              · exact hk n hn
        · simp only [scanAux, if_neg h1, if_neg h2] at h
          obtain ⟨ns, hr, hk⟩ := ih _ _ h
          exact ⟨ns, by simp [refNamesAux, h1, h2, hr], hk⟩
    | sawRbrace =>
      by_cases h1 : c = '\x7d'
      · simp only [scanAux, if_pos h1] at h
        cases hsc : scanAux vals FmtMode.text rest with
        | error e => rw [hsc] at h; exact absurd h (by simp [Except.map])
        | ok s' =>
          obtain ⟨ns, hr, hk⟩ := ih _ _ hsc
          exact ⟨ns, by simp [refNamesAux, h1, hr], hk⟩
      · simp only [scanAux, if_neg h1] at h
        exact absurd h (by simp)
    | field acc =>
      by_cases h1 : c = '\x7d'
      · simp only [scanAux, if_pos h1] at h
        split at h
        · exact absurd h (by simp)
        · rename_i v hv
          split at h
          · cases hsc : scanAux vals FmtMode.text rest with
            | error e => rw [hsc] at h; exact absurd h (by simp [Except.map])
            | ok s' =>
              obtain ⟨ns, hr, hk⟩ := ih _ _ hsc
              refine ⟨String.mk ((acc.reverse).takeWhile (fun x => !(nameStop x))) :: ns,
                by simp [refNamesAux, h1, hr], ?_⟩
              intro n hn
              rcases List.mem_cons.mp hn with rfl | hn
              · simp [hv]
              · exact hk n hn
          · exact absurd h (by simp)
      · by_cases h2 : c = '\x7b'
        · simp only [scanAux, if_neg h1, if_pos h2] at h
          exact absurd h (by simp)
        · simp only [scanAux, if_neg h1, if_neg h2] at h
          obtain ⟨ns, hr, hk⟩ := ih _ _ h
          exact ⟨ns, by simp [refNamesAux, h1, h2, hr], hk⟩

/-- Claim C5: if the template references a replacement field whose argument
name is outside the recognized set `{aspect, sign, caption, seconds}`, then
`ScenePlanner.build_scene` fails with a `FormatError` — it does not return
a `SceneSpec`.  "References" is formalized by `refNamesAux`, which lists,
for every template that parses within the modelled subset, the argument
name of each replacement field — the content up to the first `:`, `!`, `.`
or `[`, exactly the keyword CPython's `str.format` resolves — so the other
fields of the template may be arbitrary, including recognized placeholders
before the unknown one and fields carrying conversions or format specs.
When the scan reaches the unknown field, the error is its `KeyError`; an
earlier field failure also aborts the format call.  (`build_scene` is a
pure function of its arguments in this embedding — the failure produces no
event, matching "no side effects".) -/
theorem claim_C5 (render : RenderSpec) (style_tag sign text : String)
    (template : String) (ns : List String) (nm : String)
    (hp : refNamesAux .text template.data = some ns) (hmem : nm ∈ ns)
    (h1 : nm ≠ "aspect") (h2 : nm ≠ "sign") (h3 : nm ≠ "caption")
    (h4 : nm ≠ "seconds") :
    (ScenePlanner.build_scene ⟨render, style_tag⟩ sign text template).isOk = false := by
  cases hb : ScenePlanner.build_scene ⟨render, style_tag⟩ sign text template with
  | error e => rfl
  | ok sc =>
    exfalso
    unfold ScenePlanner.build_scene pyFormat at hb
    cases hf : scanAux (sceneVals render sign text) .text template.data with
    | error e => rw [hf] at hb; exact absurd hb (by simp [Except.map])
    | ok p =>
      obtain ⟨ns', hr, hk⟩ := scanAux_ok_names (sceneVals render sign text)
        template.data .text p hf
      rw [hp] at hr
      have hns : ns = ns' := by simpa using hr
      have hk' := hk nm (hns ▸ hmem)
      rw [sceneVals_none render sign text nm h1 h2 h3 h4] at hk'
      simp at hk'

theorem claim_C5_witness :
    (ScenePlanner.build_scene ⟨⟨"9:16", 8, 24, none⟩, "s"⟩ "Aries" "txt"
      "{aspect} {foo}").isOk = false :=
  claim_C5 ⟨"9:16", 8, 24, none⟩ "s" "Aries" "txt" "{aspect} {foo}"
    ["aspect", "foo"] "foo" (by decide) (by decide) (by decide) (by decide) (by decide)
    (by decide)

/-- Claim C4 counterexample: `build_scene` on the template
`"{aspect} {sign} {caption} {seconds}"` (which contains each of the four
recognized placeholders) with caption text `"{sign}"` returns a prompt in
which the recognized placeholder marker `{sign}` still occurs — the
substituted caption re-introduces it, and `str.format` does not resubstitute
— so the rendered prompt is not free of unresolved placeholder markers. -/
theorem claim_C4_counterexample :
    (ScenePlanner.build_scene ⟨⟨"9:16", 8, 24, none⟩, "s"⟩ "Aries" "{sign}"
        "{aspect} {sign} {caption} {seconds}" =
      .ok ⟨"Aries", "{sign}", "9:16 Aries {sign} 8", ⟨"9:16", 8, 24, none⟩, "s"⟩) ∧
    ("{sign}".data <:+: "9:16 Aries {sign} 8".data) := by
  constructor
  · rfl
  · decide

/-- The character sequence `t0{aspect}t1{sign}t2{caption}t3{seconds}t4`:
a template containing each of the four recognized placeholders, in the
order `DEFAULT_TEMPLATE` uses them, around arbitrary literal chunks. -/
def mkTemplate (t0 t1 t2 t3 t4 : List Char) : List Char :=
  t0 ++ ('\x7b' :: ("aspect".data ++ '\x7d' ::
    (t1 ++ ('\x7b' :: ("sign".data ++ '\x7d' ::
      (t2 ++ ('\x7b' :: ("caption".data ++ '\x7d' ::
        (t3 ++ ('\x7b' :: ("seconds".data ++ '\x7d' :: t4)))))))))))

/-- The characters of the rendered prompt for `mkTemplate t0 t1 t2 t3 t4`:
each placeholder replaced by the corresponding field value. -/
def promptData (render : RenderSpec) (sign caption : String)
    (t0 t1 t2 t3 t4 : List Char) : List Char :=
  t0 ++ render.aspect_ratio.data ++ t1 ++ sign.data ++ t2 ++ caption.data ++
    t3 ++ (toString render.seconds).data ++ t4

/-- Claim C4 (amended): for every render spec, style tag, sign name and
caption text, and every template of the shape
`t0{aspect}t1{sign}t2{caption}t3{seconds}t4` with brace-free literal
chunks, `build_scene` returns a `SceneSpec` whose prompt is exactly that
template with the four placeholders replaced by the corresponding field
values; the rendered prompt therefore contains each literal substituted
value, and — provided the substituted values themselves introduce no brace
character — no unresolved placeholder marker remains. -/
theorem claim_C4_amended (render : RenderSpec) (style_tag sign caption : String)
    (template : String) (t0 t1 t2 t3 t4 : List Char)
    (hT : template.data = mkTemplate t0 t1 t2 t3 t4)
    (h0 : ∀ c ∈ t0, c ≠ '\x7b' ∧ c ≠ '\x7d')
    (h1 : ∀ c ∈ t1, c ≠ '\x7b' ∧ c ≠ '\x7d')
    (h2 : ∀ c ∈ t2, c ≠ '\x7b' ∧ c ≠ '\x7d')
    (h3 : ∀ c ∈ t3, c ≠ '\x7b' ∧ c ≠ '\x7d')
    (h4 : ∀ c ∈ t4, c ≠ '\x7b' ∧ c ≠ '\x7d') :
    (ScenePlanner.build_scene ⟨render, style_tag⟩ sign caption template =
      .ok ⟨sign, caption,
        String.mk (promptData render sign caption t0 t1 t2 t3 t4), render, style_tag⟩) ∧
    (render.aspect_ratio.data <:+: promptData render sign caption t0 t1 t2 t3 t4) ∧
    (sign.data <:+: promptData render sign caption t0 t1 t2 t3 t4) ∧
    (caption.data <:+: promptData render sign caption t0 t1 t2 t3 t4) ∧
    ((toString render.seconds).data <:+: promptData render sign caption t0 t1 t2 t3 t4) ∧
    ('\x7b' ∉ promptData render sign caption t0 t1 t2 t3 t4 →
      ∀ m ∈ (["{aspect}", "{sign}", "{caption}", "{seconds}"] : List String),
        ¬ (m.data <:+: promptData render sign caption t0 t1 t2 t3 t4)) := by
  have key : pyFormat template (sceneVals render sign caption) =
      .ok (String.mk (promptData render sign caption t0 t1 t2 t3 t4)) := by
    unfold pyFormat
    rw [hT]
    unfold mkTemplate
    rw [scanAux_text_plain _ t0 _ h0,
      scanAux_text_field _ "aspect".data _ (by decide) (by decide),
      show sceneVals render sign caption (String.mk "aspect".data) =
        some render.aspect_ratio from rfl,
      scanAux_text_plain _ t1 _ h1,
      scanAux_text_field _ "sign".data _ (by decide) (by decide),
      show sceneVals render sign caption (String.mk "sign".data) = some sign from rfl,
      scanAux_text_plain _ t2 _ h2,
      scanAux_text_field _ "caption".data _ (by decide) (by decide),
      show sceneVals render sign caption (String.mk "caption".data) = some caption from rfl,
      scanAux_text_plain _ t3 _ h3,
      scanAux_text_field _ "seconds".data _ (by decide) (by decide),
      show sceneVals render sign caption (String.mk "seconds".data) =
        some (toString render.seconds) from rfl,
      scanAux_text_plain_nil _ t4 h4]
    simp only [Except.map_comp]
    show Except.ok (String.mk t0 ++ (render.aspect_ratio ++ (String.mk t1 ++ (sign ++
        (String.mk t2 ++ (caption ++ (String.mk t3 ++
          (toString render.seconds ++ String.mk t4)))))))) =
      Except.ok (String.mk (promptData render sign caption t0 t1 t2 t3 t4))
    apply congrArg
    apply String.ext
    simp [String.data_append, promptData, List.append_assoc]
  refine ⟨?_, ?_, ?_, ?_, ?_, ?_⟩
  · unfold ScenePlanner.build_scene
    rw [key]
    rfl
  · exact ⟨t0, t1 ++ sign.data ++ t2 ++ caption.data ++ t3 ++
      (toString render.seconds).data ++ t4, by simp [promptData, List.append_assoc]⟩
  · exact ⟨t0 ++ render.aspect_ratio.data ++ t1, t2 ++ caption.data ++ t3 ++
      (toString render.seconds).data ++ t4, by simp [promptData, List.append_assoc]⟩
  · exact ⟨t0 ++ render.aspect_ratio.data ++ t1 ++ sign.data ++ t2,
      t3 ++ (toString render.seconds).data ++ t4, by simp [promptData, List.append_assoc]⟩
  · exact ⟨t0 ++ render.aspect_ratio.data ++ t1 ++ sign.data ++ t2 ++ caption.data ++ t3,
      t4, by simp [promptData, List.append_assoc]⟩
  · intro hclean m hm hinf
    apply hclean
    apply hinf.subset
    simp only [List.mem_cons, List.mem_singleton] at hm
    rcases hm with rfl | rfl | rfl | rfl | hm
    · decide
    · decide
    · decide
    · decide
    · simp at hm

theorem claim_C4_witness :
    (ScenePlanner.build_scene ⟨⟨"9:16", 8, 24, none⟩, "s"⟩ "Aries" "cap"
        "{aspect} {sign} {caption} {seconds}" =
      .ok ⟨"Aries", "cap",
        String.mk (promptData ⟨"9:16", 8, 24, none⟩ "Aries" "cap" [] [' '] [' '] [' '] []),
        ⟨"9:16", 8, 24, none⟩, "s"⟩) ∧
    (("9:16" : String).data <:+: promptData ⟨"9:16", 8, 24, none⟩ "Aries" "cap" [] [' '] [' '] [' '] []) ∧
    (("Aries" : String).data <:+: promptData ⟨"9:16", 8, 24, none⟩ "Aries" "cap" [] [' '] [' '] [' '] []) ∧
    (("cap" : String).data <:+: promptData ⟨"9:16", 8, 24, none⟩ "Aries" "cap" [] [' '] [' '] [' '] []) ∧
    ((toString (8 : Nat)).data <:+: promptData ⟨"9:16", 8, 24, none⟩ "Aries" "cap" [] [' '] [' '] [' '] []) ∧
    ('\x7b' ∉ promptData ⟨"9:16", 8, 24, none⟩ "Aries" "cap" [] [' '] [' '] [' '] [] →
      ∀ m ∈ (["{aspect}", "{sign}", "{caption}", "{seconds}"] : List String),
        ¬ (m.data <:+: promptData ⟨"9:16", 8, 24, none⟩ "Aries" "cap" [] [' '] [' '] [' '] [])) :=
  claim_C4_amended ⟨"9:16", 8, 24, none⟩ "s" "Aries" "cap"
    "{aspect} {sign} {caption} {seconds}" [] [' '] [' '] [' '] []
    (by decide) (by decide) (by decide) (by decide) (by decide) (by decide)

end Veo
